import Mathlib

/-!
Verification of the scrcpy-helper daemon core of the mobile-ui-testing
plugin: the frame buffer, the command server's response framing, the
backend router's fallback logic, and the video recorder's start guard.

The Python sources are embedded shallowly:
- image frames are matrices of pixel values (`Frame`);
- wall-clock readings (`time.time()`, `time.perf_counter()`) are passed
  in explicitly as rational parameters;
- Python `bytes` are lists of naturals, each < 256 where it matters;
- dynamic exceptions are modelled with `Except` / explicit outcome types.
-/

namespace Scrcpy

/-! ## Frames (numpy arrays in the source)

A frame is a pixel matrix: a list of rows of pixel values (one channel;
the claims under study never depend on the channel count).  Pixel values
are naturals (uint8 in the source). -/

structure Frame where
  rows : List (List Nat)
deriving DecidableEq, Repr

/-- `frame.shape` in numpy: (height, width).  The source only compares
shapes for equality. -/
def Frame.shape (f : Frame) : Nat × Nat :=
  (f.rows.length, (f.rows.headD []).length)

/-- Python extended slice `x[::n]` on a list: every `n`-th element
starting at index 0. -/
def everyNth (n : Nat) (xs : List α) : List α :=
  (xs.enum.filter (fun p => p.1 % n = 0)).map Prod.snd

/-- `frame[::scale, ::scale]`: downsample rows and columns. -/
def Frame.downsample (scale : Nat) (f : Frame) : Frame :=
  ⟨(everyNth scale f.rows).map (everyNth scale)⟩

/-- All pixel values of a frame, row-major (`np.mean` iterates all
entries). -/
def Frame.pixels (f : Frame) : List Nat :=
  f.rows.flatten

end Scrcpy

/-! ## frame_buffer.py: `FrameBuffer` -/

namespace Scrcpy

/-- The state of a `FrameBuffer`: the bounds and the deque of
`(timestamp, frame)` pairs, front (oldest position) first.  The lock
plays no role in the sequential claims. -/
structure FrameBuffer where
  max_frames : Nat
  max_seconds : ℚ
  frames : List (ℚ × Frame)
deriving DecidableEq, Repr

/-- `deque.append` with `maxlen`: when full, the element at the opposite
end is discarded. -/
def dequeAppend (maxlen : Nat) (xs : List α) (x : α) : List α :=
  let ys := xs ++ [x]
  ys.drop (ys.length - maxlen)

/-- `FrameBuffer._cleanup_old`: pop from the front while the front
frame's timestamp is below `cutoff = time.time() - max_seconds`.
`now` is the `time.time()` reading made inside `_cleanup_old`. -/
def FrameBuffer.cleanup_old (fb : FrameBuffer) (now : ℚ) : FrameBuffer :=
  { fb with frames := fb.frames.dropWhile (fun p => p.1 < now - fb.max_seconds) }

/-- `FrameBuffer.add_frame` with an explicit `timestamp` argument.
`now` is the wall clock observed by `_cleanup_old` (when `timestamp`
is omitted in Python it likewise defaults to the wall clock). -/
def FrameBuffer.add_frame (fb : FrameBuffer) (frame : Frame) (timestamp : ℚ)
    (now : ℚ) : FrameBuffer :=
  FrameBuffer.cleanup_old
    { fb with frames := dequeAppend fb.max_frames fb.frames (timestamp, frame) } now

/-- Python `l[-n:]` (`list(self.frames)[-n:]` in `get_recent`): for
`n = 0` the start index is `-0 = 0`, so the slice is the whole list;
otherwise it starts at `max(0, len - n)`. -/
def pyTailSlice (l : List α) (n : Nat) : List α :=
  if n = 0 then l else l.drop (l.length - n)

/-- `FrameBuffer.get_recent` (the per-element `.copy()` is identity in a
value model). -/
def FrameBuffer.get_recent (fb : FrameBuffer) (n : Nat) : List (ℚ × Frame) :=
  pyTailSlice fb.frames n

/-- Python `abs()` on a rational, written so that it evaluates by
kernel reduction (it equals `|q|`, see `pyAbs_eq_abs`). -/
def pyAbs (q : ℚ) : ℚ := if q < 0 then -q else q

/-- The scan in `FrameBuffer.get_around` locating `closest_idx`: it
walks the frames with index `i`, keeping the smallest `abs(ts -
timestamp)` seen so far (`min_diff`, initially `float("inf")`, modelled
as `none`) and its index (`closest_idx`, initially 0); only a strictly
smaller difference updates the pair.  Only the timestamps matter. -/
def closestScan (timestamp : ℚ) : List ℚ → Nat → Option ℚ → Nat → Option ℚ × Nat
  | [], _, min_diff, closest_idx => (min_diff, closest_idx)
  | ts :: rest, i, min_diff, closest_idx =>
      let diff := pyAbs (ts - timestamp)
      if match min_diff with | none => true | some m => diff < m then
        closestScan timestamp rest (i + 1) (some diff) i
      else
        closestScan timestamp rest (i + 1) min_diff closest_idx

/-- `closest_idx` as computed by `FrameBuffer.get_around`. -/
def closestIdx (timestamp : ℚ) (tss : List ℚ) : Nat :=
  (closestScan timestamp tss 0 none 0).2

/-- `FrameBuffer.get_around`: empty result on an empty buffer, otherwise
the slice `frames[max(0, ci - before) : min(len(frames), ci + after +
1)]` around the closest index (`-` below is truncated subtraction, which
is Python's `max(0, ·)`). -/
def FrameBuffer.get_around (fb : FrameBuffer) (timestamp : ℚ) (before after : Nat) :
    List (ℚ × Frame) :=
  let frames := fb.frames
  if frames = [] then []
  else
    let ci := closestIdx timestamp (frames.map Prod.fst)
    let start := ci - before
    let stop := min frames.length (ci + after + 1)
    (frames.drop start).take (stop - start)

/-- The perceptual-hash facility: `imagehash.phash` produces a 64-bit
fingerprint and `hash1 - hash2` is the Hamming distance between the two
bit vectors.  The hash function itself is an external library, kept
abstract; the distance is the genuine bit-mismatch count. -/
def hammingDist (h1 h2 : List Bool) : Nat :=
  ((h1.zip h2).filter (fun p => p.1 ≠ p.2)).length

/-- `FrameBuffer.frames_differ`.  `phash` is `some h` when the
`imagehash` facility is importable and hashing succeeds (the
`IMAGEHASH_AVAILABLE` path), `none` for the pixel-downsample fallback.
On the hash path: `similarity = 1 - diff/64 < threshold`.  On the
fallback path: shape mismatch differs; otherwise the mean absolute
pixel difference of the copies downsampled by 8 is normalised by 255
(`np.mean` of an empty array is NaN in Python, and `NaN < t` is false;
the rational division-by-zero below yields mean 0, similarity 1 —
the Boolean agrees for every `threshold ≤ 1`, and the claims below
only leave that range on non-empty frames). -/
def FrameBuffer.frames_differ (phash : Option (Frame → List Bool))
    (frame1 frame2 : Frame) (threshold : ℚ) : Bool :=
  match phash with
  | some h =>
      let diff : ℚ := hammingDist (h frame1) (h frame2)
      let similarity := 1 - diff / 64
      similarity < threshold
  | none =>
      if frame1.shape ≠ frame2.shape then true
      else
        let scale := 8
        let small1 := frame1.downsample scale
        let small2 := frame2.downsample scale
        let pairs := small1.pixels.zip small2.pixels
        let diff : ℚ :=
          (pairs.map (fun p => pyAbs ((p.1 : ℚ) - (p.2 : ℚ)))).sum / pairs.length
        let similarity := 1 - diff / 255
        similarity < threshold

/-- The consecutive-pair loop of `FrameBuffer.is_stable`: `False` as
soon as some `frames_differ(recent[i], recent[i+1], threshold)`. -/
def consecutiveStable (phash : Option (Frame → List Bool)) (threshold : ℚ) :
    List Frame → Bool
  | a :: b :: rest =>
      !FrameBuffer.frames_differ phash a b threshold
        && consecutiveStable phash threshold (b :: rest)
  | _ => true

/-- `FrameBuffer.is_stable`: false when fewer than `samples` frames are
buffered, otherwise the consecutive check over
`list(self.frames)[-samples:]` (the `[-0:]` slice is the whole list,
see `pyTailSlice`). -/
def FrameBuffer.is_stable (phash : Option (Frame → List Bool)) (fb : FrameBuffer)
    (threshold : ℚ) (samples : Nat) : Bool :=
  if fb.frames.length < samples then false
  else
    let recent := (pyTailSlice fb.frames samples).map Prod.snd
    consecutiveStable phash threshold recent

end Scrcpy

/-! ## server.py: response framing (`handle_client`, binary branch)

`struct.pack(">I", len(response))` followed by the raw payload bytes. -/

namespace ScrcpyServer

/-- `struct.pack(">I", n)`: the 4-byte big-endian encoding of `n`
(the source only packs values that fit, `n < 2^32`). -/
def packBE32 (n : Nat) : List Nat :=
  [n / 2 ^ 24 % 256, n / 2 ^ 16 % 256, n / 2 ^ 8 % 256, n % 256]

/-- The bytes put on the wire for a binary response in
`ScrcpyHelperServer.handle_client`: `struct.pack(">I", len(response)) +
response`. -/
def writeBinaryResponse (response : List Nat) : List Nat :=
  packBE32 response.length ++ response

/-- Modelled from the spec: the conformant client read it describes —
interpret the first 4 bytes as a big-endian unsigned length `L`, then
take exactly `L` following bytes.  (The repository ships no Python
client for the binary branch; this follows the spec's framing words.) -/
def conformantRead (stream : List Nat) : Option (List Nat) :=
  match stream with
  | b0 :: b1 :: b2 :: b3 :: rest =>
      let L := ((b0 * 256 + b1) * 256 + b2) * 256 + b3
      if L ≤ rest.length then some (rest.take L) else none
  | _ => none

/-- Python `str` whitespace (`str.strip` / `str.split` with no
argument). -/
def pyIsSpace (c : Char) : Bool :=
  c = ' ' || c = '\t' || c = '\n' || c = '\r' || c = '\x0b' || c = '\x0c'

/-- Python `s.strip()`. -/
def pyStrip (s : String) : String :=
  ⟨((s.toList.dropWhile pyIsSpace).reverse.dropWhile pyIsSpace).reverse⟩

/-- Python `s.lower()` (the command names in play are ASCII). -/
def pyLower (s : String) : String :=
  ⟨s.toList.map Char.toLower⟩

/-- Python `s.split()` on a character list: whitespace-run separated
words, empties dropped.  `acc` carries the current word reversed. -/
def pyWordsAux : List Char → List Char → List (List Char)
  | [], acc => if acc = [] then [] else [acc.reverse]
  | c :: cs, acc =>
      if pyIsSpace c then
        if acc = [] then pyWordsAux cs [] else acc.reverse :: pyWordsAux cs []
      else pyWordsAux cs (c :: acc)

/-- Python `s.split(maxsplit=1)` on an already-stripped character list:
the first word, and the remainder after the following whitespace run
(`none` when nothing follows). -/
def pySplitMax1 (cs : List Char) : List Char × Option (List Char) :=
  let cs1 := cs.dropWhile pyIsSpace
  let w := cs1.takeWhile (fun c => !pyIsSpace c)
  let rest := (cs1.dropWhile (fun c => !pyIsSpace c)).dropWhile pyIsSpace
  (w, if rest = [] then none else some rest)

/-- What a registered handler does on a given argument list.  A handler
returning any dynamic value other than a string or a
`("BINARY", bytes)` pair crashes inside the `try` block and is
indistinguishable from `raises` (the exception is caught the same
way). -/
inductive HandlerOutcome
  | text (s : String)
  | binary (b : List Nat)
  | raises (msg : String)

/-- The `(is_binary, response_bytes)` pair `handle_command` returns:
`text s` stands for `(False, s.encode())`, `binary b` for
`(True, b)`. -/
inductive Resp
  | text (s : String)
  | binary (b : List Nat)
deriving DecidableEq

/-- An ASCII single quote (the `f"... '{cmd}'"` interpolation). -/
def sq : String := String.singleton (Char.ofNat 39)

/-- `result.endswith("\n")`: for a one-character suffix, Python
`endswith` holds exactly when the last character is that character. -/
def endsWithNl (s : String) : Bool := s.data.getLast? = some '\n'

/-- The parse in `handle_command`: strip; `none` when empty; else split
into the lowercased command name and the whitespace-split argument
list. -/
def parseCommand (command_line : String) : Option (String × List String) :=
  let cl := pyStrip command_line
  if cl = "" then none
  else
    let p := pySplitMax1 cl.toList
    let cmd := pyLower ⟨p.1⟩
    let args : List String :=
      match p.2 with
      | none => []
      | some rest => (pyWordsAux rest []).map (fun l => (⟨l⟩ : String))
    some (cmd, args)

/-- The dispatch in `handle_command`: unknown commands give a text
error; a handler's text result gets a newline appended unless already
present; a handler exception is caught and turned into
`ERROR: <message>`. -/
def dispatch (commands : String → Option (List String → HandlerOutcome))
    (cmd : String) (args : List String) : Resp :=
  match commands cmd with
  | none => .text ("ERROR: unknown command " ++ sq ++ cmd ++ sq ++ "\n")
  | some handler =>
      match handler args with
      | .binary b => .binary b
      | .text s => .text (if endsWithNl s then s else s ++ "\n")
      | .raises msg => .text ("ERROR: " ++ msg ++ "\n")

/-- `ScrcpyHelperServer.handle_command`, over the registered command
table. -/
def handle_command (commands : String → Option (List String → HandlerOutcome))
    (command_line : String) : Resp :=
  match parseCommand command_line with
  | none => .text "ERROR: empty command\n"
  | some (cmd, args) => dispatch commands cmd args

end ScrcpyServer

/-! ## router.py: `DeviceRouter`

The two backends are external (a scrcpy socket, adb subprocesses); their
per-call outcomes are supplied as `Except`-valued oracles.  Each router
operation returns its Python result, the updated router state, and the
trace of backend invocations it performed, so "never touches the fast
backend" is a statement about the trace. -/

namespace Router

/-- The router state: `_scrcpy_available` (`None` = not checked yet).
The lazily created backend objects hold no state the claims depend
on. -/
structure RouterState where
  scrcpy_available : Option Bool
deriving DecidableEq, Repr

/-- One backend invocation, for the trace. -/
inductive Call
  | scrcpyConnect
  | scrcpyTap
  | scrcpyScreenshot
  | adbTap
  | adbScreenshot
deriving DecidableEq, Repr

/-- Which fast-backend calls exist. -/
def Call.isScrcpy : Call → Bool
  | .scrcpyConnect => true
  | .scrcpyTap => true
  | .scrcpyScreenshot => true
  | _ => false

/-- `DeviceRouter._check_scrcpy_available`: probe once, cache the
boolean; a raising probe caches `False`.  `connect` is the outcome
`self.scrcpy.connect()` would have if invoked. -/
def check_scrcpy_available (st : RouterState) (connect : Except Unit Bool) :
    Bool × RouterState × List Call :=
  match st.scrcpy_available with
  | some b => (b, st, [])
  | none =>
      match connect with
      | .ok b => (b, ⟨some b⟩, [.scrcpyConnect])
      | .error _ => (false, ⟨some false⟩, [.scrcpyConnect])

/-- Outcomes of the backend calls a single `tap` might make.  The
scrcpy tap either succeeds or raises; likewise the adb tap (an adb
exception propagates to the caller). -/
structure TapOracle where
  connect : Except Unit Bool
  scrcpyTap : Except Unit Unit
  adbTap : Except Unit Unit

/-- `DeviceRouter.tap`: fast path when the cached probe says available,
transparently falling back to adb on a scrcpy exception.  The result is
the backend tag of the serving backend (`perf_counter` latencies carry
no information the claims use). -/
def tap (st : RouterState) (o : TapOracle) :
    Except Unit String × RouterState × List Call :=
  let (avail, st1, c1) := check_scrcpy_available st o.connect
  if avail then
    match o.scrcpyTap with
    | .ok _ => (.ok "scrcpy", st1, c1 ++ [.scrcpyTap])
    | .error _ =>
        match o.adbTap with
        | .ok _ => (.ok "adb", st1, c1 ++ [.scrcpyTap, .adbTap])
        | .error e => (.error e, st1, c1 ++ [.scrcpyTap, .adbTap])
  else
    match o.adbTap with
    | .ok _ => (.ok "adb", st1, c1 ++ [.adbTap])
    | .error e => (.error e, st1, c1 ++ [.adbTap])

/-- Outcomes of the backend calls a single `screenshot` might make;
the payloads are the image bytes. -/
structure ShotOracle where
  connect : Except Unit Bool
  scrcpyShot : Except Unit (List Nat)
  adbShot : Except Unit (List Nat)

/-- `DeviceRouter.screenshot`: returns `(image_data, backend_used)`. -/
def screenshot (st : RouterState) (o : ShotOracle) :
    Except Unit (List Nat × String) × RouterState × List Call :=
  let (avail, st1, c1) := check_scrcpy_available st o.connect
  if avail then
    match o.scrcpyShot with
    | .ok data => (.ok (data, "scrcpy"), st1, c1 ++ [.scrcpyScreenshot])
    | .error _ =>
        match o.adbShot with
        | .ok data => (.ok (data, "adb"), st1, c1 ++ [.scrcpyScreenshot, .adbScreenshot])
        | .error e => (.error e, st1, c1 ++ [.scrcpyScreenshot, .adbScreenshot])
  else
    match o.adbShot with
    | .ok data => (.ok (data, "adb"), st1, c1 ++ [.adbScreenshot])
    | .error e => (.error e, st1, c1 ++ [.adbScreenshot])

/-- A sequence of `tap` calls, collecting every result and the combined
backend trace. -/
def runTaps : RouterState → List TapOracle →
    List (Except Unit String) × RouterState × List Call
  | st, [] => ([], st, [])
  | st, o :: os =>
      let (r, st1, c) := tap st o
      let (rs, st2, cs) := runTaps st1 os
      (r :: rs, st2, c ++ cs)

end Router

/-! ## video.py: `VideoRecorder` -/

namespace Video

open Scrcpy

/-- The mutable state of `VideoRecorder` (`output_dir` and the lock play
no role in the claims). -/
structure VideoRecorder where
  recording : Bool
  frames : List (ℚ × Frame)
  start_time : ℚ
deriving DecidableEq, Repr

/-- `VideoRecorder.start`.  `now` is the `time.time()` reading.
Returns the Python return value paired with the updated state. -/
def VideoRecorder.start (vr : VideoRecorder) (now : ℚ) : Bool × VideoRecorder :=
  if vr.recording then (false, vr)
  else (true, { recording := true, frames := [], start_time := now })

/-- `VideoRecorder.add_frame`. -/
def VideoRecorder.add_frame (vr : VideoRecorder) (frame : Frame) (timestamp : ℚ) :
    VideoRecorder :=
  if vr.recording then { vr with frames := vr.frames ++ [(timestamp, frame)] }
  else vr

end Video

/-! # Theorems -/

section Helpers

/-- The element at the head of a `dropWhile` result falsifies the
predicate. -/
theorem head?_dropWhile_not {α} (p : α → Bool) (l : List α) {x : α}
    (h : (l.dropWhile p).head? = some x) : p x = false := by
  induction l with
  | nil => simp [List.dropWhile] at h
  | cons a l ih =>
      rw [List.dropWhile_cons] at h
      by_cases hp : p a
      · rw [if_pos hp] at h
        exact ih h
      · rw [if_neg hp] at h
        simp only [List.head?_cons, Option.some.injEq] at h
        subst h
        simpa using hp

/-- In a list whose first components are non-decreasing, every element
surviving `dropWhile (·.1 < c)` has first component at least `c`. -/
theorem dropWhile_lt_bound {β} (c : ℚ) (l : List (ℚ × β))
    (hs : l.Pairwise (fun p q => p.1 ≤ q.1)) :
    ∀ p ∈ l.dropWhile (fun p => p.1 < c), c ≤ p.1 := by
  induction l with
  | nil => simp
  | cons a l ih =>
      rcases List.pairwise_cons.mp hs with ⟨ha, hl⟩
      intro p hp
      rw [List.dropWhile_cons] at hp
      by_cases hc : a.1 < c
      · rw [if_pos (by simpa using hc)] at hp
        exact ih hl p hp
      · rw [if_neg (by simpa using hc)] at hp
        rcases List.mem_cons.mp hp with h | h
        · subst h; exact le_of_not_lt hc
        · exact le_trans (le_of_not_lt hc) (ha p h)

end Helpers

/-! ## C10: `VideoRecorder.start` guard -/

/-- C10: calling `VideoRecorder.start` while recording returns `False`
and leaves the state (frames, start time, flag) untouched; on a
non-recording recorder it returns `True`, sets the flag and resets the
frame list to empty. -/
theorem videoRecorder_start_guard (vr : Video.VideoRecorder) (now : ℚ) :
    (vr.recording = true → vr.start now = (false, vr)) ∧
    (vr.recording = false →
      (vr.start now).1 = true ∧ (vr.start now).2.recording = true ∧
      (vr.start now).2.frames = [] ∧ (vr.start now).2.start_time = now) := by
  refine ⟨fun h => ?_, fun h => ?_⟩ <;> simp [Video.VideoRecorder.start, h]

/-- Witness for C10 at two concrete recorders, one recording and one
idle. -/
theorem videoRecorder_start_guard_witness :
    (Video.VideoRecorder.start ⟨true, [((1 : ℚ), ⟨[[0]]⟩)], 0⟩ 5 =
      (false, ⟨true, [((1 : ℚ), ⟨[[0]]⟩)], 0⟩)) ∧
    ((Video.VideoRecorder.start ⟨false, [((1 : ℚ), ⟨[[0]]⟩)], 0⟩ 5).1 = true ∧
      (Video.VideoRecorder.start ⟨false, [((1 : ℚ), ⟨[[0]]⟩)], 0⟩ 5).2.recording = true ∧
      (Video.VideoRecorder.start ⟨false, [((1 : ℚ), ⟨[[0]]⟩)], 0⟩ 5).2.frames = [] ∧
      (Video.VideoRecorder.start ⟨false, [((1 : ℚ), ⟨[[0]]⟩)], 0⟩ 5).2.start_time = 5) :=
  ⟨(videoRecorder_start_guard ⟨true, [((1 : ℚ), ⟨[[0]]⟩)], 0⟩ 5).1 rfl,
   (videoRecorder_start_guard ⟨false, [((1 : ℚ), ⟨[[0]]⟩)], 0⟩ 5).2 rfl⟩

/-! ## C4: binary response framing round-trip -/

/-- C4: a binary response goes on the wire as a 4-byte big-endian
length followed by exactly the payload bytes, and a conformant client
reading the prefix and then `L` bytes recovers the payload exactly
(for every payload whose length fits the 4-byte field, the empty
payload and 64KB-plus payloads included). -/
theorem writeBinaryResponse_roundTrip (response : List Nat)
    (h : response.length < 2 ^ 32) :
    (ScrcpyServer.packBE32 response.length).length = 4 ∧
    ScrcpyServer.writeBinaryResponse response =
      ScrcpyServer.packBE32 response.length ++ response ∧
    ScrcpyServer.conformantRead (ScrcpyServer.writeBinaryResponse response) =
      some response := by
  refine ⟨rfl, rfl, ?_⟩
  simp only [ScrcpyServer.writeBinaryResponse, ScrcpyServer.packBE32,
    List.cons_append, List.nil_append, ScrcpyServer.conformantRead]
  have hL : ((response.length / 2 ^ 24 % 256 * 256 + response.length / 2 ^ 16 % 256) * 256 +
      response.length / 2 ^ 8 % 256) * 256 + response.length % 256 = response.length := by
    omega
  rw [hL]
  simp

/-- Witness for C4: the empty payload and a 65536-byte payload both
round-trip. -/
theorem writeBinaryResponse_roundTrip_witness :
    ScrcpyServer.conformantRead (ScrcpyServer.writeBinaryResponse []) = some [] ∧
    ScrcpyServer.conformantRead
        (ScrcpyServer.writeBinaryResponse (List.replicate 65536 7)) =
      some (List.replicate 65536 7) :=
  ⟨(writeBinaryResponse_roundTrip [] (by norm_num)).2.2,
   (writeBinaryResponse_roundTrip (List.replicate 65536 7)
      (by rw [List.length_replicate]; norm_num)).2.2⟩

/-! ## C8: `frames_differ` on identical frames -/

/-- `pyAbs` is the absolute value. -/
theorem pyAbs_eq_abs (q : ℚ) : Scrcpy.pyAbs q = |q| := by
  rw [Scrcpy.pyAbs]
  by_cases h : q < 0
  · rw [if_pos h, abs_of_neg h]
  · rw [if_neg h, abs_of_nonneg (le_of_not_lt h)]

/-- A bit string is at Hamming distance 0 from itself. -/
theorem hammingDist_self_eq_zero (l : List Bool) : Scrcpy.hammingDist l l = 0 := by
  induction l with
  | nil => rfl
  | cons a l ih => simpa [Scrcpy.hammingDist, List.zip_cons_cons] using ih

/-- Zipping a pixel list with itself gives only zero absolute
differences. -/
theorem zip_self_absdiff (l : List Nat) :
    ((l.zip l).map (fun p => Scrcpy.pyAbs ((p.1 : ℚ) - (p.2 : ℚ)))).sum = 0 := by
  induction l with
  | nil => rfl
  | cons a l ih =>
      simp only [List.zip_cons_cons, List.map_cons, List.sum_cons, ih, add_zero, sub_self]
      norm_num [Scrcpy.pyAbs]

/-- C8 counterexample: the claim quantifies over every threshold
greater than 0, but at `threshold = 2` the self-similarity 1 is below
the threshold and `frames_differ` reports the frame as differing from
itself (on the deterministic fallback path, at a concrete non-empty
frame). -/
theorem frames_differ_self_two_true :
    Scrcpy.FrameBuffer.frames_differ none ⟨[[0]]⟩ ⟨[[0]]⟩ 2 = true ∧ (0 : ℚ) < 2 := by
  constructor
  · norm_num [Scrcpy.FrameBuffer.frames_differ, Scrcpy.Frame.shape,
      Scrcpy.Frame.downsample, Scrcpy.Frame.pixels, Scrcpy.everyNth, Scrcpy.pyAbs,
      List.enum, List.enumFrom]
  · norm_num

/-- C8 amended: for every threshold in `(0, 1]` a frame never differs
from itself, on the perceptual-hash path (Hamming distance 0, so
similarity exactly 1) as well as on the deterministic pixel-downsample
fallback path (mean absolute difference 0, so similarity exactly 1). -/
theorem frames_differ_self_false (phash : Option (Scrcpy.Frame → List Bool))
    (f : Scrcpy.Frame) (t : ℚ) (h0 : 0 < t) (h1 : t ≤ 1) :
    Scrcpy.FrameBuffer.frames_differ phash f f t = false := by
  cases phash with
  | some hf =>
      simp only [Scrcpy.FrameBuffer.frames_differ, hammingDist_self_eq_zero,
        Nat.cast_zero, zero_div, sub_zero]
      exact decide_eq_false (not_lt.mpr h1)
  | none =>
      simp only [Scrcpy.FrameBuffer.frames_differ, ne_eq, not_true_eq_false, if_false,
        zip_self_absdiff, zero_div, sub_zero]
      exact decide_eq_false (not_lt.mpr h1)

/-- Witness for C8 (amended) at a concrete frame and the source's
default threshold 0.95, on the fallback path. -/
theorem frames_differ_self_false_witness :
    Scrcpy.FrameBuffer.frames_differ none ⟨[[0, 7], [3, 5]]⟩ ⟨[[0, 7], [3, 5]]⟩
      (95 / 100) = false :=
  frames_differ_self_false none ⟨[[0, 7], [3, 5]]⟩ (95 / 100) (by norm_num) (by norm_num)

/-! ## C9: `get_recent` -/

/-- C9 (code bug): `list(self.frames)[-n:]` with `n = 0` is the whole
list, so `get_recent(0)` on a one-frame buffer returns that frame — 1
frame where the documented contract (`min(n, count)` most recent)
demands `min 0 1 = 0`. -/
theorem get_recent_zero_returns_all :
    Scrcpy.FrameBuffer.get_recent ⟨120, 2, [((5 : ℚ), ⟨[[0]]⟩)]⟩ 0 =
      [((5 : ℚ), ⟨[[0]]⟩)] ∧
    (Scrcpy.FrameBuffer.get_recent ⟨120, 2, [((5 : ℚ), ⟨[[0]]⟩)]⟩ 0).length ≠
      min 0 1 :=
  ⟨rfl, by decide⟩

/-! ## C6: `is_stable` -/

/-- The consecutive-pair loop returns true exactly when no adjacent
pair differs. -/
theorem consecutiveStable_iff_chain (phash : Option (Scrcpy.Frame → List Bool))
    (t : ℚ) :
    ∀ l, Scrcpy.consecutiveStable phash t l = true ↔
      List.Chain' (fun a b => Scrcpy.FrameBuffer.frames_differ phash a b t = false) l
  | [] => by simp [Scrcpy.consecutiveStable]
  | [a] => by simp [Scrcpy.consecutiveStable]
  | a :: b :: rest => by
      rw [Scrcpy.consecutiveStable, Bool.and_eq_true, List.chain'_cons,
        consecutiveStable_iff_chain phash t (b :: rest)]
      simp [Bool.not_eq_true']

/-- C6 counterexample: at `samples = 0` the claim demands `true`
(there is no consecutive pair among the last 0 frames), but the
`[-0:]` slice makes the source compare the whole buffer: on a buffer
of two maximally different frames `is_stable(0.98, 0)` is `false`. -/
theorem is_stable_zero_samples_false :
    Scrcpy.FrameBuffer.is_stable none
        ⟨120, 2, [((0 : ℚ), ⟨[[0]]⟩), ((1 : ℚ), ⟨[[255]]⟩)]⟩ (98 / 100) 0 = false ∧
    ¬(([((0 : ℚ), (⟨[[0]]⟩ : Scrcpy.Frame)), ((1 : ℚ), ⟨[[255]]⟩)]).length < 0) ∧
    List.Chain' (fun a b => Scrcpy.FrameBuffer.frames_differ none a b (98 / 100) = false)
      ((([((0 : ℚ), (⟨[[0]]⟩ : Scrcpy.Frame)), ((1 : ℚ), ⟨[[255]]⟩)]).drop (2 - 0)).map
        Prod.snd) := by
  refine ⟨?_, by simp, by simp⟩
  norm_num [Scrcpy.FrameBuffer.is_stable, Scrcpy.pyTailSlice, Scrcpy.consecutiveStable,
    Scrcpy.FrameBuffer.frames_differ, Scrcpy.Frame.shape, Scrcpy.Frame.downsample,
    Scrcpy.Frame.pixels, Scrcpy.everyNth, Scrcpy.pyAbs, List.enum, List.enumFrom]

/-- C6 amended: for every `samples ≥ 1`, `is_stable` is false when
fewer than `samples` frames are buffered, and otherwise is true iff no
consecutive pair among the last `samples` buffered frames differs under
`frames_differ` at that threshold.  (At `samples = 0` the source
compares the whole buffer instead, see the counterexample.) -/
theorem is_stable_spec (phash : Option (Scrcpy.Frame → List Bool))
    (fb : Scrcpy.FrameBuffer) (t : ℚ) (samples : Nat) (hs : 1 ≤ samples) :
    (fb.frames.length < samples →
      Scrcpy.FrameBuffer.is_stable phash fb t samples = false) ∧
    (samples ≤ fb.frames.length →
      (Scrcpy.FrameBuffer.is_stable phash fb t samples = true ↔
        List.Chain' (fun a b => Scrcpy.FrameBuffer.frames_differ phash a b t = false)
          ((fb.frames.drop (fb.frames.length - samples)).map Prod.snd))) := by
  constructor
  · intro h
    rw [Scrcpy.FrameBuffer.is_stable, if_pos h]
  · intro h
    rw [Scrcpy.FrameBuffer.is_stable, if_neg (not_lt.mpr h), Scrcpy.pyTailSlice,
      if_neg (by omega : ¬samples = 0)]
    exact consecutiveStable_iff_chain phash t _

/-- Witness for C6 (amended) on a concrete two-frame buffer of
identical frames, `samples = 2`: both hypotheses discharged, the
stability check holds. -/
theorem is_stable_spec_witness :
    Scrcpy.FrameBuffer.is_stable none
        ⟨120, 2, [((0 : ℚ), ⟨[[0]]⟩), ((1 : ℚ), ⟨[[0]]⟩)]⟩ (98 / 100) 2 = true ↔
      List.Chain' (fun a b => Scrcpy.FrameBuffer.frames_differ none a b (98 / 100) = false)
        ((([((0 : ℚ), (⟨[[0]]⟩ : Scrcpy.Frame)), ((1 : ℚ), ⟨[[0]]⟩)]).drop (2 - 2)).map
          Prod.snd) :=
  (is_stable_spec none ⟨120, 2, [((0 : ℚ), ⟨[[0]]⟩), ((1 : ℚ), ⟨[[0]]⟩)]⟩ (98 / 100) 2
    (by norm_num)).2 (by simp)

/-! ## C1: `add_frame` bounds -/

/-- C1 counterexample: eviction compares against the wall clock
(`time.time() - max_seconds`), not the newest frame's timestamp.  With
explicit timestamps 200 and 300 added at wall-clock time 100 on a
buffer with `max_seconds = 2`, both frames are retained although the
older one is 100 seconds older than the most recently added frame's
timestamp — far beyond `maxAgeSeconds`. -/
theorem add_frame_retains_stale :
    ((((⟨5, 2, []⟩ : Scrcpy.FrameBuffer).add_frame ⟨[[0]]⟩ 200 100).add_frame
        ⟨[[0]]⟩ 300 100).frames.map Prod.fst = [(200 : ℚ), 300]) ∧
    ((200 : ℚ) < 300 - 2) := by
  constructor
  · norm_num [Scrcpy.FrameBuffer.add_frame, Scrcpy.FrameBuffer.cleanup_old,
      Scrcpy.dequeAppend, List.dropWhile]
  · norm_num

/-- C1 amended: after every `add_frame` (from any prior state, hence
along every call sequence) the buffer holds at most `max_frames`
frames; the age bound is relative to the wall clock observed during the
insert's cleanup, not the newest frame's timestamp: the oldest retained
frame (if any) is at least `now - max_seconds`, and when the stored
timestamps together with the new one are non-decreasing this holds for
every retained frame. -/
theorem add_frame_spec (fb : Scrcpy.FrameBuffer) (frame : Scrcpy.Frame)
    (ts now : ℚ) :
    ((fb.add_frame frame ts now).frames.length ≤ fb.max_frames) ∧
    (∀ p, (fb.add_frame frame ts now).frames.head? = some p →
      now - fb.max_seconds ≤ p.1) ∧
    ((fb.frames ++ [(ts, frame)]).Pairwise (fun p q => p.1 ≤ q.1) →
      ∀ p ∈ (fb.add_frame frame ts now).frames, now - fb.max_seconds ≤ p.1) := by
  refine ⟨?_, ?_, ?_⟩
  · have h1 := (List.dropWhile_sublist
      (l := Scrcpy.dequeAppend fb.max_frames fb.frames (ts, frame))
      (fun p : ℚ × Scrcpy.Frame => decide (p.1 < now - fb.max_seconds))).length_le
    have h2 : (Scrcpy.dequeAppend fb.max_frames fb.frames (ts, frame)).length ≤
        fb.max_frames := by
      simp only [Scrcpy.dequeAppend, List.length_drop, List.length_append,
        List.length_singleton]
      omega
    simpa [Scrcpy.FrameBuffer.add_frame, Scrcpy.FrameBuffer.cleanup_old] using
      le_trans h1 h2
  · intro p hp
    simp only [Scrcpy.FrameBuffer.add_frame, Scrcpy.FrameBuffer.cleanup_old] at hp
    have := head?_dropWhile_not _ _ hp
    simpa using of_decide_eq_false this
  · intro hsorted p hp
    simp only [Scrcpy.FrameBuffer.add_frame, Scrcpy.FrameBuffer.cleanup_old] at hp
    have hsub : List.Sublist (Scrcpy.dequeAppend fb.max_frames fb.frames (ts, frame))
        (fb.frames ++ [(ts, frame)]) := by
      simpa [Scrcpy.dequeAppend] using
        List.drop_sublist ((fb.frames ++ [(ts, frame)]).length - fb.max_frames)
          (fb.frames ++ [(ts, frame)])
    exact dropWhile_lt_bound (now - fb.max_seconds) _ (hsorted.sublist hsub) p hp

/-- Witness for C1 (amended): a concrete insert (`timestamp = 10`,
wall clock 10) into the empty three-slot buffer with `max_seconds = 1`
satisfies all three bounds. -/
theorem add_frame_spec_witness :
    (((⟨3, 1, []⟩ : Scrcpy.FrameBuffer).add_frame ⟨[[0]]⟩ 10 10).frames.length ≤ 3) ∧
    ((10 : ℚ) - 1 ≤ (10 : ℚ)) ∧
    (∀ p ∈ ((⟨3, 1, []⟩ : Scrcpy.FrameBuffer).add_frame ⟨[[0]]⟩ 10 10).frames,
      (10 : ℚ) - 1 ≤ p.1) :=
  ⟨(add_frame_spec ⟨3, 1, []⟩ ⟨[[0]]⟩ 10 10).1,
   by norm_num,
   (add_frame_spec ⟨3, 1, []⟩ ⟨[[0]]⟩ 10 10).2.2 (by simp)⟩

/-! ## C2, C3: the backend router -/

/-- A `tap` on a router whose probe is cached unavailable goes straight
to adb: no scrcpy call, tag `"adb"`, cached flag untouched. -/
theorem tap_unavailable (o : Router.TapOracle) :
    Router.tap ⟨some false⟩ o =
      (match o.adbTap with
       | .ok _ => (.ok "adb", ⟨some false⟩, [.adbTap])
       | .error e => (.error e, ⟨some false⟩, [.adbTap])) := by
  cases ha : o.adbTap <;> simp [Router.tap, Router.check_scrcpy_available, ha]

/-- Any sequence of `tap` calls from the cached-unavailable state only
ever touches adb, reports tag `"adb"` (or propagates the adb error),
and leaves the cached flag unavailable. -/
theorem runTaps_unavailable (os : List Router.TapOracle) :
    (∀ r ∈ (Router.runTaps ⟨some false⟩ os).1, r = .ok "adb" ∨ r = .error ()) ∧
    (Router.runTaps ⟨some false⟩ os).2.1 = ⟨some false⟩ ∧
    (∀ c ∈ (Router.runTaps ⟨some false⟩ os).2.2, c = Router.Call.adbTap) := by
  induction os with
  | nil => simp [Router.runTaps]
  | cons o os ih =>
      obtain ⟨ih1, ih2, ih3⟩ := ih
      cases ha : o.adbTap with
      | ok u =>
          refine ⟨?_, ?_, ?_⟩ <;> simp only [Router.runTaps, tap_unavailable o, ha]
          · intro r hr
            rcases List.mem_cons.mp hr with h | h
            · exact Or.inl h
            · exact ih1 r h
          · exact ih2
          · intro c hc
            rcases List.mem_cons.mp (by simpa using hc) with h | h
            · exact h
            · exact ih3 c h
      | error e =>
          refine ⟨?_, ?_, ?_⟩ <;> simp only [Router.runTaps, tap_unavailable o, ha]
          · intro r hr
            rcases List.mem_cons.mp hr with h | h
            · exact Or.inr h
            · exact ih1 r h
          · exact ih2
          · intro c hc
            rcases List.mem_cons.mp (by simpa using hc) with h | h
            · exact h
            · exact ih3 c h

/-- C2 counterexample: the tag string the router reports for a
fallback-served tap is `"adb"`, not the literal `"fallback"`: in the
concrete scenario (probe unavailable, two taps) both calls report
`"adb"`. -/
theorem router_tap_tag_is_adb :
    (Router.runTaps ⟨none⟩
        [⟨.ok false, .ok (), .ok ()⟩, ⟨.ok true, .ok (), .ok ()⟩]).1 =
      [.ok "adb", .ok "adb"] ∧
    ("adb" : String) ≠ "fallback" :=
  ⟨rfl, by decide⟩

/-- C2 amended: when the availability probe on first use reports
unavailable or raises, every subsequent `tap` is served by the fallback
backend and reports that backend's tag — the string `"adb"`, not the
literal `"fallback"` (an adb failure propagates) — and after the single
probing `connect`, no fast-backend operation is ever invoked again for
the router's lifetime. -/
theorem router_tap_after_failed_probe (o0 : Router.TapOracle)
    (hconn : o0.connect = .ok false ∨ o0.connect = .error ())
    (os : List Router.TapOracle) :
    (∀ r ∈ (Router.runTaps ⟨none⟩ (o0 :: os)).1, r = .ok "adb" ∨ r = .error ()) ∧
    (Router.runTaps ⟨none⟩ (o0 :: os)).2.1 = ⟨some false⟩ ∧
    ∃ rest, (Router.runTaps ⟨none⟩ (o0 :: os)).2.2 = .scrcpyConnect :: rest ∧
      ∀ c ∈ rest, c = Router.Call.adbTap := by
  have htap : Router.tap ⟨none⟩ o0 =
      (match o0.adbTap with
       | .ok _ => (.ok "adb", ⟨some false⟩, [.scrcpyConnect, .adbTap])
       | .error e => (.error e, ⟨some false⟩, [.scrcpyConnect, .adbTap])) := by
    rcases hconn with h | h <;> cases ha : o0.adbTap <;>
      simp [Router.tap, Router.check_scrcpy_available, h, ha]
  obtain ⟨h1, h2, h3⟩ := runTaps_unavailable os
  cases ha : o0.adbTap with
  | ok u =>
      refine ⟨?_, ?_, .adbTap :: (Router.runTaps ⟨some false⟩ os).2.2, ?_, ?_⟩ <;>
        (try simp only [Router.runTaps, htap, ha])
      · intro r hr
        rcases List.mem_cons.mp hr with h | h
        · exact Or.inl h
        · exact h1 r h
      · exact h2
      · rfl
      · intro c hc
        rcases List.mem_cons.mp hc with h | h
        · exact h
        · exact h3 c h
  | error e =>
      refine ⟨?_, ?_, .adbTap :: (Router.runTaps ⟨some false⟩ os).2.2, ?_, ?_⟩ <;>
        (try simp only [Router.runTaps, htap, ha])
      · intro r hr
        rcases List.mem_cons.mp hr with h | h
        · exact Or.inr h
        · exact h1 r h
      · exact h2
      · rfl
      · intro c hc
        rcases List.mem_cons.mp hc with h | h
        · exact h
        · exact h3 c h

/-- Witness for C2: a concrete probe returning unavailable followed by
one more tap call (whose oracle would even allow scrcpy — it is never
consulted). -/
theorem router_tap_after_failed_probe_witness :
    (∀ r ∈ (Router.runTaps ⟨none⟩
        [⟨.ok false, .ok (), .ok ()⟩, ⟨.ok true, .ok (), .ok ()⟩]).1,
      r = .ok "adb" ∨ r = .error ()) ∧
    (Router.runTaps ⟨none⟩
        [⟨.ok false, .ok (), .ok ()⟩, ⟨.ok true, .ok (), .ok ()⟩]).2.1 =
      ⟨some false⟩ ∧
    ∃ rest, (Router.runTaps ⟨none⟩
        [⟨.ok false, .ok (), .ok ()⟩, ⟨.ok true, .ok (), .ok ()⟩]).2.2 =
      .scrcpyConnect :: rest ∧ ∀ c ∈ rest, c = Router.Call.adbTap :=
  router_tap_after_failed_probe ⟨.ok false, .ok (), .ok ()⟩ (Or.inl rfl)
    [⟨.ok true, .ok (), .ok ()⟩]

/-- C3: with the availability flag cached `available`, a `screenshot`
whose fast-backend call raises is served by the fallback backend and
tagged `"adb"`, the cached flag stays `available`, and a following
`screenshot` attempts the fast backend first again. -/
theorem router_screenshot_fallback (o : Router.ShotOracle) (data : List Nat)
    (hs : o.scrcpyShot = .error ()) (ha : o.adbShot = .ok data)
    (o2 : Router.ShotOracle) :
    Router.screenshot ⟨some true⟩ o =
      (.ok (data, "adb"), ⟨some true⟩, [.scrcpyScreenshot, .adbScreenshot]) ∧
    ∃ rest, (Router.screenshot ⟨some true⟩ o2).2.2 =
      Router.Call.scrcpyScreenshot :: rest := by
  constructor
  · simp [Router.screenshot, Router.check_scrcpy_available, hs, ha]
  · cases h2 : o2.scrcpyShot with
    | ok d => exact ⟨[], by simp [Router.screenshot, Router.check_scrcpy_available, h2]⟩
    | error e =>
        cases h3 : o2.adbShot with
        | ok d =>
            exact ⟨[.adbScreenshot],
              by simp [Router.screenshot, Router.check_scrcpy_available, h2, h3]⟩
        | error e2 =>
            exact ⟨[.adbScreenshot],
              by simp [Router.screenshot, Router.check_scrcpy_available, h2, h3]⟩

/-- Witness for C3 at concrete oracles: the failing call and a healthy
follow-up call. -/
theorem router_screenshot_fallback_witness :
    Router.screenshot ⟨some true⟩ ⟨.ok true, .error (), .ok [1, 2]⟩ =
      (.ok ([1, 2], "adb"), ⟨some true⟩, [.scrcpyScreenshot, .adbScreenshot]) ∧
    ∃ rest, (Router.screenshot ⟨some true⟩ ⟨.ok true, .ok [3], .ok [4]⟩).2.2 =
      Router.Call.scrcpyScreenshot :: rest :=
  router_screenshot_fallback ⟨.ok true, .error (), .ok [1, 2]⟩ [1, 2] rfl rfl
    ⟨.ok true, .ok [3], .ok [4]⟩

/-! ## C5: `handle_command` -/

/-- Appending a newline makes the last character a newline. -/
theorem getLast_append_newline (s : String) :
    (s ++ "\n").data.getLast? = some '\n' := by
  rw [show (s ++ "\n").data = s.data ++ ['\n'] from by simp [String.data_append]]
  simp

/-- C5: for every registered command table and every input line,
`handle_command` returns (a total function — the `try/except` swallows
handler exceptions); every text response it produces ends in a newline,
and whenever the dispatched handler raises, the response is the text
`ERROR: <message>` — in particular it starts with `ERROR:`. -/
theorem handle_command_safe
    (commands : String → Option (List String → ScrcpyServer.HandlerOutcome))
    (line : String) :
    (∀ s, ScrcpyServer.handle_command commands line = .text s →
      s.data.getLast? = some '\n') ∧
    (∀ cmd args h msg, ScrcpyServer.parseCommand line = some (cmd, args) →
      commands cmd = some h → h args = .raises msg →
      ScrcpyServer.handle_command commands line = .text ("ERROR: " ++ msg ++ "\n") ∧
      ("ERROR: " ++ msg ++ "\n").data.take 6 = "ERROR:".data) := by
  constructor
  · intro s hs
    rw [ScrcpyServer.handle_command] at hs
    cases hp : ScrcpyServer.parseCommand line with
    | none =>
        rw [hp] at hs
        cases hs
        decide
    | some pr =>
        obtain ⟨cmd, args⟩ := pr
        rw [hp] at hs
        simp only [ScrcpyServer.dispatch] at hs
        cases hcmd : commands cmd with
        | none =>
            simp only [hcmd] at hs
            cases hs
            exact getLast_append_newline _
        | some h =>
            simp only [hcmd] at hs
            cases hh : h args with
            | text s2 =>
                simp only [hh] at hs
                by_cases hnl : ScrcpyServer.endsWithNl s2
                · rw [if_pos hnl] at hs
                  cases hs
                  exact of_decide_eq_true hnl
                · rw [if_neg hnl] at hs
                  cases hs
                  exact getLast_append_newline _
            | binary b => simp only [hh] at hs; cases hs
            | raises msg =>
                simp only [hh] at hs
                cases hs
                exact getLast_append_newline _
  · intro cmd args h msg hp hcmd hh
    constructor
    · rw [ScrcpyServer.handle_command, hp]
      simp only [ScrcpyServer.dispatch, hcmd, hh]
    · rw [show ("ERROR: " ++ msg ++ "\n").data =
          "ERROR: ".data ++ (msg.data ++ ['\n']) from by simp [String.data_append]]
      rw [List.take_append_of_le_length (by decide)]
      decide

/-- Witness for C5: a concrete table whose only command raises; the
line `"BOOM now"` parses to that command (case-folded) and the
response is the newline-terminated `ERROR:` text. -/
theorem handle_command_safe_witness :
    ScrcpyServer.handle_command
        (fun c => if c = "boom" then some (fun _ => .raises "kaput") else none)
        "BOOM now" = .text ("ERROR: " ++ "kaput" ++ "\n") ∧
    ("ERROR: " ++ "kaput" ++ "\n").data.take 6 = "ERROR:".data :=
  (handle_command_safe
      (fun c => if c = "boom" then some (fun _ => .raises "kaput") else none)
      "BOOM now").2 "boom" ["now"] (fun _ => .raises "kaput") "kaput"
    (by decide) rfl rfl

/-! ## C7: `get_around` -/

/-- Invariant of the `closest_idx` scan once a best candidate exists:
the final best difference is no larger than the incoming one, bounds
every scanned difference, and the final index is either the incoming
one (with its difference) or points into the scanned segment at an
element realising the final difference. -/
theorem closestScan_inv (t : ℚ) :
    ∀ (l : List ℚ) (i : Nat) (m : ℚ) (mi : Nat),
      ∃ m2 idx, Scrcpy.closestScan t l i (some m) mi = (some m2, idx) ∧
        m2 ≤ m ∧ (∀ ts ∈ l, m2 ≤ Scrcpy.pyAbs (ts - t)) ∧
        ((idx = mi ∧ m2 = m) ∨
          ∃ j, ∃ hj : j < l.length, idx = i + j ∧
            m2 = Scrcpy.pyAbs (l.get ⟨j, hj⟩ - t))
  | [], i, m, mi => ⟨m, mi, rfl, le_refl m, by simp, Or.inl ⟨rfl, rfl⟩⟩
  | ts :: rest, i, m, mi => by
      by_cases hd : Scrcpy.pyAbs (ts - t) < m
      · obtain ⟨m2, idx, heq, hle, hall, hcase⟩ :=
          closestScan_inv t rest (i + 1) (Scrcpy.pyAbs (ts - t)) i
        refine ⟨m2, idx, ?_, le_of_lt (lt_of_le_of_lt hle hd), ?_, ?_⟩
        · rw [Scrcpy.closestScan]
          simp only [hd, decide_True, if_pos]
          exact heq
        · intro x hx
          rcases List.mem_cons.mp hx with h | h
          · exact h ▸ hle
          · exact hall x h
        · rcases hcase with ⟨hi, hm⟩ | ⟨j, hj, hi, hm⟩
          · exact Or.inr ⟨0, by simp, by omega, by simpa using hm⟩
          · exact Or.inr ⟨j + 1, by simpa using Nat.succ_lt_succ hj,
              by omega, by simpa using hm⟩
      · obtain ⟨m2, idx, heq, hle, hall, hcase⟩ := closestScan_inv t rest (i + 1) m mi
        refine ⟨m2, idx, ?_, hle, ?_, ?_⟩
        · rw [Scrcpy.closestScan]
          simp only [hd, decide_False, if_neg]
          exact heq
        · intro x hx
          rcases List.mem_cons.mp hx with h | h
          · exact h ▸ le_trans hle (le_of_not_lt hd)
          · exact hall x h
        · rcases hcase with ⟨hi, hm⟩ | ⟨j, hj, hi, hm⟩
          · exact Or.inl ⟨hi, hm⟩
          · exact Or.inr ⟨j + 1, by simpa using Nat.succ_lt_succ hj,
              by omega, by simpa using hm⟩

/-- On a non-empty timestamp list, `closest_idx` is in range and points
at a timestamp of minimal absolute distance to the target. -/
theorem closestIdx_spec (t : ℚ) (l : List ℚ) (h : l ≠ []) :
    ∃ hlt : Scrcpy.closestIdx t l < l.length,
      ∀ ts ∈ l, Scrcpy.pyAbs (l.get ⟨Scrcpy.closestIdx t l, hlt⟩ - t) ≤
        Scrcpy.pyAbs (ts - t) := by
  match l with
  | ts0 :: rest =>
      have hstep : Scrcpy.closestScan t (ts0 :: rest) 0 none 0 =
          Scrcpy.closestScan t rest 1 (some (Scrcpy.pyAbs (ts0 - t))) 0 := by
        rw [Scrcpy.closestScan]
        norm_num
      obtain ⟨m2, idx, heq, hle, hall, hcase⟩ :=
        closestScan_inv t rest 1 (Scrcpy.pyAbs (ts0 - t)) 0
      have hidx : Scrcpy.closestIdx t (ts0 :: rest) = idx := by
        rw [Scrcpy.closestIdx, hstep, heq]
      rcases hcase with ⟨hi, hm⟩ | ⟨j, hj, hi, hm⟩
      · have hlt : Scrcpy.closestIdx t (ts0 :: rest) < (ts0 :: rest).length := by
          rw [hidx, hi]; simp
        refine ⟨hlt, ?_⟩
        intro ts hts
        have hget : (ts0 :: rest).get ⟨Scrcpy.closestIdx t (ts0 :: rest), hlt⟩ = ts0 := by
          have : Scrcpy.closestIdx t (ts0 :: rest) = 0 := by rw [hidx, hi]
          simp [this]
        rw [hget, ← hm]
        rcases List.mem_cons.mp hts with hx | hx
        · rw [hx, ← hm]
        · exact hall ts hx
      · have hlt : Scrcpy.closestIdx t (ts0 :: rest) < (ts0 :: rest).length := by
          rw [hidx, hi]; simp; omega
        refine ⟨hlt, ?_⟩
        intro ts hts
        have hget : (ts0 :: rest).get ⟨Scrcpy.closestIdx t (ts0 :: rest), hlt⟩ =
            rest.get ⟨j, hj⟩ := by
          have h1 : Scrcpy.closestIdx t (ts0 :: rest) = 1 + j := by rw [hidx, hi]
          have h2 : (1 : Nat) + j = j + 1 := by omega
          simp only [List.get_eq_getElem, h1, h2]
          simp
        rw [hget, ← hm]
        rcases List.mem_cons.mp hts with hx | hx
        · rw [hx]; exact le_trans hle (le_refl _)
        · exact hall ts hx

/-- C7: `get_around(ts, 0, 0)` returns the empty list on an empty
buffer, and on a non-empty buffer exactly one frame — a buffered frame
whose absolute timestamp distance to the target is minimal. -/
theorem get_around_zero_zero (fb : Scrcpy.FrameBuffer) (t : ℚ) :
    (fb.frames = [] → fb.get_around t 0 0 = []) ∧
    (fb.frames ≠ [] → ∃ p, fb.get_around t 0 0 = [p] ∧ p ∈ fb.frames ∧
      ∀ q ∈ fb.frames, |p.1 - t| ≤ |q.1 - t|) := by
  constructor
  · intro h
    rw [Scrcpy.FrameBuffer.get_around, if_pos h]
  · intro h
    have hmap : fb.frames.map Prod.fst ≠ [] := by simpa using h
    obtain ⟨hlt, hmin⟩ := closestIdx_spec t (fb.frames.map Prod.fst) hmap
    have hlen : Scrcpy.closestIdx t (fb.frames.map Prod.fst) < fb.frames.length := by
      simpa using hlt
    refine ⟨fb.frames.get ⟨_, hlen⟩, ?_, List.get_mem _ _ _, ?_⟩
    · rw [Scrcpy.FrameBuffer.get_around, if_neg h]
      simp only [Nat.sub_zero, Nat.add_zero]
      rw [min_eq_right (by omega :
        Scrcpy.closestIdx t (fb.frames.map Prod.fst) + 1 ≤ fb.frames.length)]
      rw [Nat.add_sub_cancel_left]
      rw [List.drop_eq_getElem_cons hlen]
      simp only [List.get_eq_getElem]
      rfl
    · intro q hq
      have hqmem : q.1 ∈ fb.frames.map Prod.fst := List.mem_map_of_mem Prod.fst hq
      have := hmin q.1 hqmem
      rw [List.get_eq_getElem, List.getElem_map] at this
      rw [← pyAbs_eq_abs, ← pyAbs_eq_abs]
      simpa using this

/-- Witness for C7 on a concrete two-frame buffer: around `t = 6` the
single nearest frame is the one at timestamp 7. -/
theorem get_around_zero_zero_witness :
    ∃ p, Scrcpy.FrameBuffer.get_around
        ⟨120, 2, [((1 : ℚ), ⟨[[0]]⟩), ((7 : ℚ), ⟨[[1]]⟩)]⟩ 6 0 0 = [p] ∧
      p ∈ ([((1 : ℚ), (⟨[[0]]⟩ : Scrcpy.Frame)), ((7 : ℚ), ⟨[[1]]⟩)]) ∧
      ∀ q ∈ ([((1 : ℚ), (⟨[[0]]⟩ : Scrcpy.Frame)), ((7 : ℚ), ⟨[[1]]⟩)]),
        |p.1 - (6 : ℚ)| ≤ |q.1 - (6 : ℚ)| :=
  (get_around_zero_zero ⟨120, 2, [((1 : ℚ), ⟨[[0]]⟩), ((7 : ℚ), ⟨[[1]]⟩)]⟩ 6).2
    (by simp)
